import Mathlib

/-!
Verification of the fungible-token contract (`src/lib.rs`) against its
natural-language specification.

The contract in `src/lib.rs` is a thin wrapper: its entry points delegate to
the `near_contract_standards::fungible_token::FungibleToken` implementation,
whose source is not vendored in this repository.  Definitions below that embed
that missing implementation are therefore modelled from the specification's
own description of the Balance Ledger, Storage Rent Ledger and Transfer
Protocol; each such definition carries a doc comment starting with
`Modelled from the spec:`.  Definitions taken directly from `src/lib.rs`
(the log hooks, initialization structure, unregister glue, payability of the
entry points) are translated from that file.

Amounts are `u128` in the source; they are embedded as `Nat` with an explicit
bound `U128MAX` checked where the specification mentions `Overflow`.
Account maps are embedded as association lists.
-/

namespace FT

/-- Account identifiers are opaque host-validated strings. -/
abbrev AccountId := String

/-- The largest `u128` value; amounts in the source are unsigned 128-bit. -/
def U128MAX : Nat := 2 ^ 128 - 1

/-- Error taxonomy of the specification (section 7). -/
inductive TokenError where
  | AlreadyInitialized
  | InvalidMetadata
  | ZeroAmount
  | SelfTransfer
  | AccountNotRegistered
  | AlreadyRegistered
  | InsufficientStorageDeposit
  | InsufficientBalance
  | Overflow
  | NonZeroBalance
deriving Repr, DecidableEq

/-- Result of an entry-point invocation: either a host-level abort (for
example an attached deposit sent to a non-payable method, which the host
rejects before the contract body runs) or a contract-level error from the
taxonomy.  Either kind aborts the invocation with full rollback (spec
section 7). -/
inductive CallError where
  | hostAbort
  | contractErr (e : TokenError)
deriving Repr, DecidableEq

/-- Storage bounds record: minimum required escrow and optional maximum. -/
structure StorageBalanceBounds where
  min : Nat
  max : Option Nat
deriving Repr, DecidableEq

/-- Contract state: the Balance Ledger (per-account balances plus total
supply) and the Storage Rent Ledger (per-account escrowed native-currency
total).  Both maps are association lists keyed by account id. -/
structure TokenState where
  balances : List (AccountId × Nat)
  storage : List (AccountId × Nat)
  supply : Nat
deriving Repr, DecidableEq

/-- Lookup in an association list (first matching key). -/
def lookupAcc : List (AccountId × Nat) → AccountId → Option Nat
  | [], _ => none
  | (k, v) :: t, a => if k = a then some v else lookupAcc t a

/-- Update the first binding of a key, inserting at the end if absent. -/
def setAcc : List (AccountId × Nat) → AccountId → Nat → List (AccountId × Nat)
  | [], a, v => [(a, v)]
  | (k, w) :: t, a, v => if k = a then (a, v) :: t else (k, w) :: setAcc t a v

/-- Remove the first binding of a key. -/
def removeAcc : List (AccountId × Nat) → AccountId → List (AccountId × Nat)
  | [], _ => []
  | (k, w) :: t, a => if k = a then t else (k, w) :: removeAcc t a

/-- Sum of all balances in the ledger map. -/
def sumBal : List (AccountId × Nat) → Nat
  | [] => 0
  | (_, v) :: t => v + sumBal t

/-- Log line emitted by `Contract::on_account_closed` in `src/lib.rs`:
`Closed @<account> with <balance>`. -/
def on_account_closed (account_id : AccountId) (balance : Nat) : String :=
  "Closed @" ++ account_id ++ " with " ++ toString balance

/-- Log line emitted by `Contract::on_tokens_burned` in `src/lib.rs`:
`Account @<account> burned <amount>`. -/
def on_tokens_burned (account_id : AccountId) (amount : Nat) : String :=
  "Account @" ++ account_id ++ " burned " ++ toString amount

/-- Modelled from the spec: Balance Ledger `register` (section 4.1) of the
`FungibleToken` implementation not vendored under `src/`.  Fails
`AlreadyRegistered` if the account is present, otherwise inserts it with
balance 0. -/
def register (st : TokenState) (a : AccountId) : Except TokenError TokenState :=
  match lookupAcc st.balances a with
  | some _ => .error .AlreadyRegistered
  | none => .ok { st with balances := setAcc st.balances a 0 }

/-- Modelled from the spec: Balance Ledger `mint` (section 4.1) of the
`FungibleToken` implementation not vendored under `src/`.  Increases the
account's balance and the total supply, failing `Overflow` if either would
exceed the 128-bit range. -/
def mint (st : TokenState) (a : AccountId) (amount : Nat) : Except TokenError TokenState :=
  match lookupAcc st.balances a with
  | none => .error .AccountNotRegistered
  | some b =>
    if U128MAX < b + amount ∨ U128MAX < st.supply + amount then .error .Overflow
    else .ok { st with balances := setAcc st.balances a (b + amount),
                       supply := st.supply + amount }

/-- Modelled from the spec: Balance Ledger `burn` (section 4.1) of the
`FungibleToken` implementation not vendored under `src/`.  Requires the
account's balance to cover `amount`; decreases both the balance and the
total supply. -/
def burn (st : TokenState) (a : AccountId) (amount : Nat) : Except TokenError TokenState :=
  match lookupAcc st.balances a with
  | none => .error .AccountNotRegistered
  | some b =>
    if amount ≤ b then
      .ok { st with balances := setAcc st.balances a (b - amount),
                    supply := st.supply - amount }
    else .error .InsufficientBalance

/-- Modelled from the spec: Balance Ledger `transfer` (section 4.1) of the
`FungibleToken` implementation not vendored under `src/`.  Fails
`SelfTransfer` when sender equals receiver, `ZeroAmount` when the amount is
zero, `AccountNotRegistered` when either party is absent; otherwise debits
the sender (failing `InsufficientBalance` if the balance does not cover the
amount) and credits the receiver, leaving the total supply unchanged. -/
def internal_transfer (st : TokenState) (sender receiver : AccountId) (amount : Nat)
    (_memo : Option String) : Except TokenError TokenState :=
  if sender = receiver then .error .SelfTransfer
  else if amount = 0 then .error .ZeroAmount
  else
    match lookupAcc st.balances sender, lookupAcc st.balances receiver with
    | none, _ => .error .AccountNotRegistered
    | some _, none => .error .AccountNotRegistered
    | some bs, some br =>
      if amount ≤ bs then
        .ok { st with balances :=
                setAcc (setAcc st.balances sender (bs - amount)) receiver (br + amount) }
      else .error .InsufficientBalance

/-- The `ft_transfer` entry point of `src/lib.rs`.  It is declared without
`#[payable]`, so the host aborts any invocation with a nonzero attached
deposit before the contract body runs; otherwise it delegates to the Balance
Ledger transfer. -/
def ft_transfer (st : TokenState) (sender receiver : AccountId) (amount : Nat)
    (memo : Option String) (attached : Nat) : Except CallError TokenState :=
  if attached ≠ 0 then .error .hostAbort
  else
    match internal_transfer st sender receiver amount memo with
    | .ok st1 => .ok st1
    | .error e => .error (.contractErr e)

/-- Continuation token carried from phase 1 to phase 2 of a
transfer-with-notification (spec section 4.3). -/
structure TransferIntent where
  sender : AccountId
  receiver : AccountId
  amount : Nat
deriving Repr, DecidableEq

/-- The `ft_transfer_call` entry point of `src/lib.rs` (phase 1).  It is
declared `#[payable]`, so it never host-aborts on attachment grounds.
Modelled from the spec: phase 1 validates exactly as the synchronous
transfer, applies the debit/credit optimistically and schedules the
resolution carrying `(sender, receiver, amount)` (section 4.3). -/
def ft_transfer_call (st : TokenState) (sender receiver : AccountId) (amount : Nat)
    (memo : Option String) (_msg : String) (_attached : Nat) :
    Except CallError (TokenState × TransferIntent) :=
  match internal_transfer st sender receiver amount memo with
  | .ok st1 => .ok (st1, ⟨sender, receiver, amount⟩)
  | .error e => .error (.contractErr e)

/-- Outcome of the notify request delivered to the resolution step. -/
inductive PromiseResult where
  | Successful (unused : Nat)
  | Failed
deriving Repr, DecidableEq

/-- Modelled from the spec: the unused amount the resolution step works
with (section 4.3).  A reported value is clamped into `[0, amount]`; a
failed notify request counts as a full refund (`unused = amount`). -/
def clampUnused (amount : Nat) : PromiseResult → Nat
  | .Successful v => min amount v
  | .Failed => amount

/-- Modelled from the spec: phase 2 of the transfer-with-notification
(section 4.3) of the `FungibleToken` implementation not vendored under
`src/`.  The reported `unused` is clamped into `[0, amount]` (a failed
notify request counts as a full refund).  A positive clamped `unused` is
reversed by `debit(receiver, unused); credit(sender, unused)`; if the sender
account has been removed, the amount is instead burned from the receiver's
balance (decreasing total supply) and the burn hook's log line is emitted,
with the resolution still succeeding.  Returns the amount kept by the
receiver (`amount - unused`) together with the emitted log lines. -/
def ft_resolve_transfer (st : TokenState) (sender receiver : AccountId) (amount : Nat)
    (result : PromiseResult) : Except TokenError (TokenState × Nat × List String) :=
  if clampUnused amount result = 0 then .ok (st, amount, [])
  else
    match lookupAcc st.balances receiver with
    | none => .error .AccountNotRegistered
    | some rb =>
      if clampUnused amount result ≤ rb then
        match lookupAcc (setAcc st.balances receiver (rb - clampUnused amount result)) sender with
        | some sb =>
          .ok ({ st with balances :=
                   (setAcc (setAcc st.balances receiver (rb - clampUnused amount result))
                     sender (sb + clampUnused amount result)) },
               amount - clampUnused amount result, [])
        | none =>
          .ok ({ st with balances := setAcc st.balances receiver (rb - clampUnused amount result),
                         supply := st.supply - clampUnused amount result },
               amount - clampUnused amount result,
               [on_tokens_burned receiver (clampUnused amount result)])
      else .error .InsufficientBalance

/-- Insert an account with balance 0 if it is not already present in the
Balance Ledger map (registration on successful storage deposit). -/
def registerIfAbsent (bal : List (AccountId × Nat)) (a : AccountId) :
    List (AccountId × Nat) :=
  match lookupAcc bal a with
  | some _ => bal
  | none => setAcc bal a 0

/-- Modelled from the spec: the escrow recorded by a first deposit — the
minimum bond when `registration_only` is requested, otherwise the attached
amount capped at `bounds.max` (section 4.2). -/
def depositConsumed (bounds : StorageBalanceBounds) (registration_only : Bool)
    (attached : Nat) : Nat :=
  if registration_only then bounds.min
  else match bounds.max with
    | some m => min attached m
    | none => attached

/-- Modelled from the spec: the escrow total after a deposit onto an already
registered account — the attached amount is added and capped at
`bounds.max` (section 4.2). -/
def depositNewTotal (bounds : StorageBalanceBounds) (tot attached : Nat) : Nat :=
  match bounds.max with
  | some m => min (tot + attached) m
  | none => tot + attached

/-- Modelled from the spec: Storage Rent Ledger `deposit` (section 4.2) of
the `FungibleToken` storage implementation not vendored under `src/`.
For an unregistered account the attached amount must reach `bounds.min`,
otherwise the call fails `InsufficientStorageDeposit`; on success the
account is registered in the Balance Ledger with balance 0 and the escrow is
recorded (`registration_only` consumes only the minimum bond, otherwise the
full attached amount is consumed up to `bounds.max`).  For a registered
account (and not `registration_only`) the attached amount is added to the
escrow, capped at `bounds.max`; the remainder is refunded.  The payload is
`(new state, new escrow total, refund)`. -/
def storage_deposit (bounds : StorageBalanceBounds) (st : TokenState) (a : AccountId)
    (registration_only : Bool) (attached : Nat) :
    Except TokenError (TokenState × Nat × Nat) :=
  match lookupAcc st.storage a with
  | none =>
    if attached < bounds.min then .error .InsufficientStorageDeposit
    else
      .ok ({ st with balances := registerIfAbsent st.balances a,
                     storage := setAcc st.storage a (depositConsumed bounds registration_only attached) },
           depositConsumed bounds registration_only attached,
           attached - depositConsumed bounds registration_only attached)
  | some tot =>
    if registration_only then .ok (st, tot, attached)
    else
      .ok ({ st with storage := setAcc st.storage a (depositNewTotal bounds tot attached) },
           depositNewTotal bounds tot attached,
           tot + attached - depositNewTotal bounds tot attached)

/-- Modelled from the spec: the native-currency amount returned to the caller
of `storage_deposit`.  On an abort the host returns the entire attached
value to the caller (section 7); on success the refund recorded in the
payload is returned. -/
def storage_deposit_refund (bounds : StorageBalanceBounds) (st : TokenState)
    (a : AccountId) (registration_only : Bool) (attached : Nat) : Nat :=
  match storage_deposit bounds st a registration_only attached with
  | .ok (_, _, r) => r
  | .error _ => attached

/-- Modelled from the spec: Storage Rent Ledger `withdraw` (section 4.2) of
the `FungibleToken` storage implementation not vendored under `src/`.  The
entry point is payable but requires a zero-value attachment (section 6), so
a nonzero attachment aborts.  For a registered account it computes
`available = total - bounds.min`; `none` withdraws all of `available`,
`some a` fails `InsufficientStorageDeposit` when `a > available`; the
withdrawn amount leaves the escrow and is returned to the caller. -/
def storage_withdraw (bounds : StorageBalanceBounds) (st : TokenState) (a : AccountId)
    (amount : Option Nat) (attached : Nat) : Except CallError (TokenState × Nat) :=
  if attached ≠ 0 then .error .hostAbort
  else
    match lookupAcc st.storage a with
    | none => .error (.contractErr .AccountNotRegistered)
    | some tot =>
      match amount with
      | none =>
        .ok ({ st with storage := setAcc st.storage a (tot - (tot - bounds.min)) },
             tot - bounds.min)
      | some x =>
        if tot - bounds.min < x then .error (.contractErr .InsufficientStorageDeposit)
        else .ok ({ st with storage := setAcc st.storage a (tot - x) }, x)

/-- The `storage_unregister` entry point of `src/lib.rs`, which delegates to
`internal_storage_unregister` and invokes `on_account_closed` when an
account was closed.  Modelled from the spec for the missing
`internal_storage_unregister`: a registered account with nonzero balance and
no `force` fails `NonZeroBalance` with no mutation; otherwise a nonzero
balance is burned via the Balance Ledger (emitting the burn hook's log
line), the account row is removed from both ledgers and its full escrow is
released to the caller.  The payload is
`(new state, account was closed, released escrow, log lines)`. -/
def storage_unregister (st : TokenState) (a : AccountId) (force : Option Bool) :
    Except TokenError (TokenState × Bool × Nat × List String) :=
  match lookupAcc st.balances a with
  | none => .ok (st, false, 0, [])
  | some b =>
    if b ≠ 0 ∧ force.getD false = false then .error .NonZeroBalance
    else
      let esc := (lookupAcc st.storage a).getD 0
      .ok ({ balances := removeAcc st.balances a,
             storage := removeAcc st.storage a,
             supply := st.supply - b },
           true, esc,
           (if b = 0 then [] else [on_tokens_burned a b]) ++ [on_account_closed a b])

/-- The `ft_total_supply` view of `src/lib.rs`. -/
def ft_total_supply (st : TokenState) : Nat := st.supply

/-- The `ft_balance_of` view of `src/lib.rs`: the balance of an account, 0 if
unregistered. -/
def ft_balance_of (st : TokenState) (a : AccountId) : Nat :=
  (lookupAcc st.balances a).getD 0

/-- The `storage_balance_of` view of `src/lib.rs`: the escrow total of an
account when registered. -/
def storage_balance_of (st : TokenState) (a : AccountId) : Option Nat :=
  lookupAcc st.storage a

/-- The `new` initializer of `src/lib.rs`: starting from the empty state it
registers the owner and deposits (mints) the whole initial supply to the
owner. -/
def new (owner_id : AccountId) (total_supply : Nat) : Except TokenError TokenState :=
  match register { balances := [], storage := [], supply := 0 } owner_id with
  | .error e => .error e
  | .ok st1 => mint st1 owner_id total_supply

/-- Reachable contract states: obtained from a successful initialization by
any sequence of successful public operations (spec sections 4.1-4.3).  The
resolution step is over-approximated: it may run with any continuation
context, not only one produced by an earlier phase 1. -/
inductive Reachable (bounds : StorageBalanceBounds) : TokenState → Prop
  | init (owner ts st) : new owner ts = .ok st → Reachable bounds st
  | step_transfer (st st1 s r amt memo) : Reachable bounds st →
      internal_transfer st s r amt memo = .ok st1 → Reachable bounds st1
  | step_transfer_call (st st1 s r amt memo msg att intent) : Reachable bounds st →
      ft_transfer_call st s r amt memo msg att = .ok (st1, intent) → Reachable bounds st1
  | step_resolve (st st1 s r amt res kept logs) : Reachable bounds st →
      ft_resolve_transfer st s r amt res = .ok (st1, kept, logs) → Reachable bounds st1
  | step_deposit (st st1 a ro att tot refund) : Reachable bounds st →
      storage_deposit bounds st a ro att = .ok (st1, tot, refund) → Reachable bounds st1
  | step_withdraw (st st1 a amt att out) : Reachable bounds st →
      storage_withdraw bounds st a amt att = .ok (st1, out) → Reachable bounds st1
  | step_unregister (st st1 a force closed esc logs) : Reachable bounds st →
      storage_unregister st a force = .ok (st1, closed, esc, logs) → Reachable bounds st1

end FT

namespace FT

theorem lookupAcc_setAcc_self (l : List (AccountId × Nat)) (a : AccountId) (v : Nat) :
    lookupAcc (setAcc l a v) a = some v := by
  induction l with
  | nil => simp [setAcc, lookupAcc]
  | cons p t ih =>
    obtain ⟨k, w⟩ := p
    by_cases hk : k = a
    · simp [setAcc, hk, lookupAcc]
    · simp [setAcc, hk, lookupAcc, ih]

theorem lookupAcc_setAcc_ne (l : List (AccountId × Nat)) (a b : AccountId) (v : Nat)
    (hab : a ≠ b) : lookupAcc (setAcc l a v) b = lookupAcc l b := by
  induction l with
  | nil => simp [setAcc, lookupAcc, hab]
  | cons p t ih =>
    obtain ⟨k, w⟩ := p
    by_cases hk : k = a
    · subst hk
      simp [setAcc, lookupAcc, hab]
    · simp [setAcc, hk, lookupAcc, ih]

theorem sumBal_setAcc_some (l : List (AccountId × Nat)) (a : AccountId) (v w : Nat)
    (h : lookupAcc l a = some w) : sumBal (setAcc l a v) + w = sumBal l + v := by
  induction l with
  | nil => simp [lookupAcc] at h
  | cons p t ih =>
    obtain ⟨k, u⟩ := p
    by_cases hk : k = a
    · simp [lookupAcc, hk] at h
      subst h
      simp [setAcc, hk, sumBal]
      omega
    · simp [lookupAcc, hk] at h
      have := ih h
      simp [setAcc, hk, sumBal]
      omega

theorem sumBal_setAcc_none (l : List (AccountId × Nat)) (a : AccountId) (v : Nat)
    (h : lookupAcc l a = none) : sumBal (setAcc l a v) = sumBal l + v := by
  induction l with
  | nil => simp [setAcc, sumBal]
  | cons p t ih =>
    obtain ⟨k, u⟩ := p
    by_cases hk : k = a
    · simp [lookupAcc, hk] at h
    · simp [lookupAcc, hk] at h
      have := ih h
      simp [setAcc, hk, sumBal]
      omega

theorem sumBal_removeAcc (l : List (AccountId × Nat)) (a : AccountId) (w : Nat)
    (h : lookupAcc l a = some w) : sumBal (removeAcc l a) + w = sumBal l := by
  induction l with
  | nil => simp [lookupAcc] at h
  | cons p t ih =>
    obtain ⟨k, u⟩ := p
    by_cases hk : k = a
    · simp [lookupAcc, hk] at h
      subst h
      simp [removeAcc, hk, sumBal]
      omega
    · simp [lookupAcc, hk] at h
      have := ih h
      simp [removeAcc, hk, sumBal]
      omega

theorem lookupAcc_le_sumBal (l : List (AccountId × Nat)) (a : AccountId) (w : Nat)
    (h : lookupAcc l a = some w) : w ≤ sumBal l := by
  induction l with
  | nil => simp [lookupAcc] at h
  | cons p t ih =>
    obtain ⟨k, u⟩ := p
    by_cases hk : k = a
    · simp [lookupAcc, hk] at h
      subst h
      simp [sumBal]
    · simp [lookupAcc, hk] at h
      have := ih h
      simp [sumBal]
      omega

theorem lookupAcc_eq_none_of_not_mem (l : List (AccountId × Nat)) (a : AccountId)
    (h : a ∉ l.map Prod.fst) : lookupAcc l a = none := by
  induction l with
  | nil => simp [lookupAcc]
  | cons p t ih =>
    obtain ⟨k, u⟩ := p
    rw [List.map_cons, List.mem_cons] at h
    push_neg at h
    have hk : k ≠ a := fun hka => h.1 hka.symm
    simp [lookupAcc, hk]
    exact ih h.2

theorem lookupAcc_removeAcc_self (l : List (AccountId × Nat)) (a : AccountId)
    (hnd : (l.map Prod.fst).Nodup) : lookupAcc (removeAcc l a) a = none := by
  induction l with
  | nil => simp [removeAcc, lookupAcc]
  | cons p t ih =>
    obtain ⟨k, u⟩ := p
    rw [List.map_cons, List.nodup_cons] at hnd
    by_cases hk : k = a
    · subst hk
      simp [removeAcc]
      exact lookupAcc_eq_none_of_not_mem t k hnd.1
    · simp [removeAcc, hk, lookupAcc]
      exact ih hnd.2

end FT

namespace FT

def Inv (st : TokenState) : Prop := st.supply = sumBal st.balances

theorem inv_new (owner : AccountId) (ts : Nat) (st : TokenState)
    (h : new owner ts = .ok st) : Inv st := by
  unfold new register at h
  simp only [lookupAcc, setAcc] at h
  unfold mint at h
  split at h
  next heq => simp [lookupAcc] at heq
  next b heq =>
    simp [lookupAcc] at heq
    subst heq
    split at h
    · simp at h
    · simp only [Except.ok.injEq] at h
      subst h
      simp [Inv, sumBal, setAcc]

theorem inv_internal_transfer (st st1 : TokenState) (s r : AccountId) (amt : Nat)
    (memo : Option String) (hinv : Inv st)
    (h : internal_transfer st s r amt memo = .ok st1) : Inv st1 := by
  unfold internal_transfer at h
  split at h
  next => simp at h
  next hsr =>
    split at h
    next => simp at h
    next hamt =>
      split at h
      next => simp at h
      next => simp at h
      next bs br hs hr =>
        split at h
        next hle =>
          simp only [Except.ok.injEq] at h
          subst h
          have h1 := sumBal_setAcc_some st.balances s (bs - amt) bs hs
          have hr2 : lookupAcc (setAcc st.balances s (bs - amt)) r = some br := by
            rw [lookupAcc_setAcc_ne _ _ _ _ hsr]
            exact hr
          have h2 := sumBal_setAcc_some (setAcc st.balances s (bs - amt)) r (br + amt) br hr2
          have h3 := lookupAcc_le_sumBal st.balances s bs hs
          show st.supply = sumBal (setAcc (setAcc st.balances s (bs - amt)) r (br + amt))
          simp only [Inv] at hinv
          omega
        next => simp at h

theorem inv_ft_transfer_call (st st1 : TokenState) (s r : AccountId) (amt : Nat)
    (memo : Option String) (msg : String) (att : Nat) (intent : TransferIntent)
    (hinv : Inv st) (h : ft_transfer_call st s r amt memo msg att = .ok (st1, intent)) :
    Inv st1 := by
  unfold ft_transfer_call at h
  split at h
  next st2 heq =>
    simp only [Except.ok.injEq, Prod.mk.injEq] at h
    exact h.1 ▸ inv_internal_transfer st st2 s r amt memo hinv heq
  next => simp at h

theorem inv_ft_resolve_transfer (st st1 : TokenState) (s r : AccountId) (amt : Nat)
    (res : PromiseResult) (kept : Nat) (logs : List String) (hinv : Inv st)
    (h : ft_resolve_transfer st s r amt res = .ok (st1, kept, logs)) : Inv st1 := by
  unfold ft_resolve_transfer at h
  split at h
  next =>
    simp only [Except.ok.injEq, Prod.mk.injEq] at h
    exact h.1 ▸ hinv
  next hne =>
    split at h
    next => simp at h
    next rb hr =>
      split at h
      next hle =>
        split at h
        next sb hsnd =>
          simp only [Except.ok.injEq, Prod.mk.injEq] at h
          obtain ⟨h1, _⟩ := h
          subst h1
          have hA := sumBal_setAcc_some st.balances r (rb - clampUnused amt res) rb hr
          have hB := sumBal_setAcc_some (setAcc st.balances r (rb - clampUnused amt res)) s
            (sb + clampUnused amt res) sb hsnd
          have hC := lookupAcc_le_sumBal st.balances r rb hr
          show st.supply = sumBal (setAcc (setAcc st.balances r (rb - clampUnused amt res)) s
            (sb + clampUnused amt res))
          simp only [Inv] at hinv
          omega
        next hsnd =>
          simp only [Except.ok.injEq, Prod.mk.injEq] at h
          obtain ⟨h1, _⟩ := h
          subst h1
          have hA := sumBal_setAcc_some st.balances r (rb - clampUnused amt res) rb hr
          have hC := lookupAcc_le_sumBal st.balances r rb hr
          show st.supply - clampUnused amt res = sumBal (setAcc st.balances r (rb - clampUnused amt res))
          simp only [Inv] at hinv
          omega
      next => simp at h

theorem sumBal_registerIfAbsent (bal : List (AccountId × Nat)) (a : AccountId) :
    sumBal (registerIfAbsent bal a) = sumBal bal := by
  unfold registerIfAbsent
  split
  · rfl
  next h => simp [sumBal_setAcc_none bal a 0 h]

theorem inv_storage_deposit (bounds : StorageBalanceBounds) (st st1 : TokenState)
    (a : AccountId) (ro : Bool) (att tot refund : Nat) (hinv : Inv st)
    (h : storage_deposit bounds st a ro att = .ok (st1, tot, refund)) : Inv st1 := by
  unfold storage_deposit at h
  split at h
  next hnone =>
    split at h
    · simp at h
    · simp only [Except.ok.injEq, Prod.mk.injEq] at h
      obtain ⟨h1, _⟩ := h
      subst h1
      show st.supply = sumBal (registerIfAbsent st.balances a)
      rw [sumBal_registerIfAbsent]
      exact hinv
  next tot0 hsome =>
    split at h
    · simp only [Except.ok.injEq, Prod.mk.injEq] at h
      obtain ⟨h1, _⟩ := h
      subst h1
      exact hinv
    · simp only [Except.ok.injEq, Prod.mk.injEq] at h
      obtain ⟨h1, _⟩ := h
      subst h1
      exact hinv

theorem inv_storage_withdraw (bounds : StorageBalanceBounds) (st st1 : TokenState)
    (a : AccountId) (amt : Option Nat) (att out : Nat) (hinv : Inv st)
    (h : storage_withdraw bounds st a amt att = .ok (st1, out)) : Inv st1 := by
  unfold storage_withdraw at h
  split at h
  · simp at h
  · split at h
    next => simp at h
    next tot hsome =>
      split at h
      next =>
        simp only [Except.ok.injEq, Prod.mk.injEq] at h
        obtain ⟨h1, _⟩ := h
        subst h1
        exact hinv
      next x =>
        split at h
        · simp at h
        · simp only [Except.ok.injEq, Prod.mk.injEq] at h
          obtain ⟨h1, _⟩ := h
          subst h1
          exact hinv

theorem inv_storage_unregister (st st1 : TokenState) (a : AccountId) (force : Option Bool)
    (closed : Bool) (esc : Nat) (logs : List String) (hinv : Inv st)
    (h : storage_unregister st a force = .ok (st1, closed, esc, logs)) : Inv st1 := by
  unfold storage_unregister at h
  split at h
  next hnone =>
    simp only [Except.ok.injEq, Prod.mk.injEq] at h
    obtain ⟨h1, _⟩ := h
    subst h1
    exact hinv
  next b hb =>
    split at h
    · simp at h
    · simp only [Except.ok.injEq, Prod.mk.injEq] at h
      obtain ⟨h1, _⟩ := h
      subst h1
      have hA := sumBal_removeAcc st.balances a b hb
      have hB := lookupAcc_le_sumBal st.balances a b hb
      show st.supply - b = sumBal (removeAcc st.balances a)
      simp only [Inv] at hinv
      omega

/-- Claim C1: for every reachable contract state — every state obtained from
initialization by any sequence of the public operations transfer,
transfer-with-notification and its resolution, storage deposit, storage
withdraw and storage unregister — the stored total supply equals the sum of
all account balances at every quiescent point between invocations. -/
theorem C1_total_supply_eq_sum_balances (bounds : StorageBalanceBounds)
    (st : TokenState) (h : Reachable bounds st) :
    ft_total_supply st = sumBal st.balances := by
  induction h with
  | init owner ts st h => exact inv_new owner ts st h
  | step_transfer st st1 s r amt memo hr hstep ih =>
    exact inv_internal_transfer st st1 s r amt memo ih hstep
  | step_transfer_call st st1 s r amt memo msg att intent hr hstep ih =>
    exact inv_ft_transfer_call st st1 s r amt memo msg att intent ih hstep
  | step_resolve st st1 s r amt res kept logs hr hstep ih =>
    exact inv_ft_resolve_transfer st st1 s r amt res kept logs ih hstep
  | step_deposit st st1 a ro att tot refund hr hstep ih =>
    exact inv_storage_deposit bounds st st1 a ro att tot refund ih hstep
  | step_withdraw st st1 a amt att out hr hstep ih =>
    exact inv_storage_withdraw bounds st st1 a amt att out ih hstep
  | step_unregister st st1 a force closed esc logs hr hstep ih =>
    exact inv_storage_unregister st st1 a force closed esc logs ih hstep

/-- Witness for C1 at a concrete reachable state: the freshly initialized
ledger with owner `o` and supply 7. -/
theorem C1_total_supply_eq_sum_balances_witness :
    ft_total_supply { balances := [("o", 7)], storage := [], supply := 7 } =
      sumBal [("o", 7)] :=
  C1_total_supply_eq_sum_balances ⟨1, none⟩
    { balances := [("o", 7)], storage := [], supply := 7 }
    (Reachable.init "o" 7 _ (by rfl))

end FT

namespace FT

/-- The resolution step depends on the notify outcome only through the
clamped unused amount. -/
theorem ft_resolve_transfer_congr (st : TokenState) (s r : AccountId) (amount : Nat)
    (res1 res2 : PromiseResult) (h : clampUnused amount res1 = clampUnused amount res2) :
    ft_resolve_transfer st s r amount res1 = ft_resolve_transfer st s r amount res2 := by
  unfold ft_resolve_transfer
  rw [h]

/-- Claim C2: in phase 2 of a transfer-with-notification carrying `amount`,
for every value `unused` reported by the receiver the resolution step
returns `amount - unused'` where `unused'` is `unused` clamped into
`[0, amount]`; the receiver-kept result never exceeds `amount`, no value is
created (the supply never increases), and a reported `unused` greater than
`amount` behaves exactly as a full refund. -/
theorem C2_resolve_clamps_unused (st : TokenState) (sender receiver : AccountId)
    (amount unused rb : Nat)
    (hr : lookupAcc st.balances receiver = some rb)
    (hle : min amount unused ≤ rb) :
    ∃ st1 logs,
      ft_resolve_transfer st sender receiver amount (.Successful unused) =
        .ok (st1, amount - min amount unused, logs) ∧
      amount - min amount unused ≤ amount ∧
      st1.supply ≤ st.supply ∧
      (amount ≤ unused →
        ft_resolve_transfer st sender receiver amount (.Successful unused) =
          ft_resolve_transfer st sender receiver amount (.Successful amount)) := by
  have hcl : clampUnused amount (.Successful unused) = min amount unused := rfl
  have hcong : amount ≤ unused →
      ft_resolve_transfer st sender receiver amount (.Successful unused) =
        ft_resolve_transfer st sender receiver amount (.Successful amount) := by
    intro hau
    exact ft_resolve_transfer_congr st sender receiver amount _ _
      (by simp [clampUnused, Nat.min_eq_left hau])
  by_cases hz : min amount unused = 0
  · refine ⟨st, [], ?_, Nat.sub_le _ _, Nat.le_refl _, hcong⟩
    simp [ft_resolve_transfer, hcl, hz]
  · cases hs : lookupAcc (setAcc st.balances receiver (rb - min amount unused)) sender with
    | some sb =>
      refine ⟨{ st with balances :=
          (setAcc (setAcc st.balances receiver (rb - min amount unused))
            sender (sb + min amount unused)) }, [], ?_, Nat.sub_le _ _, Nat.le_refl _, hcong⟩
      simp only [ft_resolve_transfer, hcl, if_neg hz, hr]
      rw [if_pos hle, hs]
    | none =>
      refine ⟨{ st with
          balances := (setAcc st.balances receiver (rb - min amount unused)),
          supply := (st.supply - min amount unused) },
        [on_tokens_burned receiver (min amount unused)], ?_, Nat.sub_le _ _,
        Nat.sub_le _ _, hcong⟩
      simp only [ft_resolve_transfer, hcl, if_neg hz, hr]
      rw [if_pos hle, hs]

/-- Witness for C2 at a concrete input: receiver `r` holding 10, amount 5,
reported unused 7 (out of range, clamped to 5). -/
theorem C2_resolve_clamps_unused_witness :
    ∃ st1 logs,
      ft_resolve_transfer ⟨[("r", 10)], [], 10⟩ "s" "r" 5 (.Successful 7) =
        .ok (st1, 5 - min 5 7, logs) ∧
      5 - min 5 7 ≤ 5 ∧
      st1.supply ≤ TokenState.supply ⟨[("r", 10)], [], 10⟩ ∧
      (5 ≤ 7 →
        ft_resolve_transfer ⟨[("r", 10)], [], 10⟩ "s" "r" 5 (.Successful 7) =
          ft_resolve_transfer ⟨[("r", 10)], [], 10⟩ "s" "r" 5 (.Successful 5)) :=
  C2_resolve_clamps_unused ⟨[("r", 10)], [], 10⟩ "s" "r" 5 7 10 (by decide) (by decide)

end FT

namespace FT

/-- Claim C3: in phase 2 of a transfer-with-notification, if the sender
account has been unregistered before resolution, the unused portion is
burned from the receiver's balance, the total supply decreases, the burn
hook's log line is emitted, and the resolution step still succeeds (returns
`.ok`) rather than failing outward. -/
theorem C3_resolve_burns_when_sender_missing (st : TokenState) (sender receiver : AccountId)
    (amount : Nat) (res : PromiseResult) (rb : Nat)
    (hs : lookupAcc st.balances sender = none)
    (hr : lookupAcc st.balances receiver = some rb)
    (hpos : 0 < clampUnused amount res)
    (hle : clampUnused amount res ≤ rb)
    (hsup : clampUnused amount res ≤ st.supply) :
    ft_resolve_transfer st sender receiver amount res =
      .ok ({ st with
             balances := (setAcc st.balances receiver (rb - clampUnused amount res)),
             supply := (st.supply - clampUnused amount res) },
           amount - clampUnused amount res,
           [on_tokens_burned receiver (clampUnused amount res)]) ∧
    st.supply - clampUnused amount res < st.supply := by
  have hrs : receiver ≠ sender := by
    intro hcontra
    rw [hcontra, hs] at hr
    exact Option.noConfusion hr
  have hs2 : lookupAcc (setAcc st.balances receiver (rb - clampUnused amount res)) sender
      = none := by
    rw [lookupAcc_setAcc_ne _ _ _ _ hrs]
    exact hs
  constructor
  · simp only [ft_resolve_transfer, if_neg (Nat.pos_iff_ne_zero.mp hpos), hr]
    rw [if_pos hle, hs2]
  · omega

/-- Witness for C3 at a concrete input: sender `s` unregistered, receiver
`r` holding 10, amount 5, reported unused 7 (clamped to 5, burned). -/
theorem C3_resolve_burns_when_sender_missing_witness :
    ft_resolve_transfer ⟨[("r", 10)], [], 10⟩ "s" "r" 5 (.Successful 7) =
      .ok ({ balances := [("r", 5)], storage := [], supply := 5 },
           5 - clampUnused 5 (.Successful 7),
           [on_tokens_burned "r" (clampUnused 5 (.Successful 7))]) ∧
    (10 : Nat) - clampUnused 5 (.Successful 7) < 10 := by
  have h := C3_resolve_burns_when_sender_missing ⟨[("r", 10)], [], 10⟩ "s" "r" 5
    (.Successful 7) 10 (by decide) (by decide) (by decide) (by decide) (by decide)
  exact h

/-- Counterexample to C4 as stated: with both `a` and `b` registered,
`a ≠ b` and amount `1 ≠ 0`, the claim's remaining (otherwise) case promises
a successful atomic transfer, but the transfer of 1 from `a` holding 0
fails with `InsufficientBalance`. -/
theorem C4_transfer_counterexample :
    "a" ≠ "b" ∧ (1 : Nat) ≠ 0 ∧
    lookupAcc (TokenState.balances ⟨[("a", 0), ("b", 0)], [], 0⟩) "a" = some 0 ∧
    lookupAcc (TokenState.balances ⟨[("a", 0), ("b", 0)], [], 0⟩) "b" = some 0 ∧
    internal_transfer ⟨[("a", 0), ("b", 0)], [], 0⟩ "a" "b" 1 none =
      .error .InsufficientBalance := by
  refine ⟨by decide, by decide, by decide, by decide, by rfl⟩

/-- Claim C4 (amended): a synchronous transfer fails `SelfTransfer` when
sender equals receiver, `ZeroAmount` when the amount is 0,
`AccountNotRegistered` when either party is absent from the ledger,
`InsufficientBalance` when both are registered but the sender's balance is
below the amount, and otherwise atomically debits the sender and credits
the receiver by the amount with the total supply unchanged. -/
theorem C4_transfer_cases (st : TokenState) (s r : AccountId) (amount : Nat)
    (memo : Option String) :
    (s = r → internal_transfer st s r amount memo = .error .SelfTransfer) ∧
    (s ≠ r → amount = 0 → internal_transfer st s r amount memo = .error .ZeroAmount) ∧
    (s ≠ r → amount ≠ 0 →
      (lookupAcc st.balances s = none ∨ lookupAcc st.balances r = none) →
      internal_transfer st s r amount memo = .error .AccountNotRegistered) ∧
    (∀ bs br, s ≠ r → amount ≠ 0 → lookupAcc st.balances s = some bs →
      lookupAcc st.balances r = some br → bs < amount →
      internal_transfer st s r amount memo = .error .InsufficientBalance) ∧
    (∀ bs br, s ≠ r → amount ≠ 0 → lookupAcc st.balances s = some bs →
      lookupAcc st.balances r = some br → amount ≤ bs →
      internal_transfer st s r amount memo =
        .ok { st with balances :=
                (setAcc (setAcc st.balances s (bs - amount)) r (br + amount)) } ∧
      (({ st with balances :=
            (setAcc (setAcc st.balances s (bs - amount)) r (br + amount)) } :
          TokenState)).supply = st.supply) := by
  refine ⟨?_, ?_, ?_, ?_, ?_⟩
  · intro hsr
    simp [internal_transfer, hsr]
  · intro hsr hz
    simp [internal_transfer, hsr, hz]
  · intro hsr hz habs
    rcases habs with hs2 | hr2
    · simp [internal_transfer, hsr, hz, hs2]
    · cases hs3 : lookupAcc st.balances s with
      | none => simp [internal_transfer, hsr, hz, hs3]
      | some bs => simp [internal_transfer, hsr, hz, hs3, hr2]
  · intro bs br hsr hz hs2 hr2 hlt
    simp [internal_transfer, hsr, hz, hs2, hr2, show ¬ amount ≤ bs by omega]
  · intro bs br hsr hz hs2 hr2 hle
    exact ⟨by simp [internal_transfer, hsr, hz, hs2, hr2, hle], rfl⟩

/-- Witness for C4 (amended) at a concrete input: transferring 4 from `a`
holding 9 to `b` holding 1 succeeds with balances 5 and 5. -/
theorem C4_transfer_cases_witness :
    internal_transfer ⟨[("a", 9), ("b", 1)], [], 10⟩ "a" "b" 4 none =
      .ok { balances := [("a", 5), ("b", 5)], storage := [], supply := 10 } := by
  have h := (C4_transfer_cases ⟨[("a", 9), ("b", 1)], [], 10⟩ "a" "b" 4 none).2.2.2.2
    9 1 (by decide) (by decide) (by decide) (by decide) (by decide)
  rw [h.1]
  rfl

/-- Claim C5: after a successful initialization with `owner` and
`total_supply`, the total-supply query returns exactly `total_supply` and
the owner's balance query returns exactly `total_supply`; initialization
mints the whole supply to the owner. -/
theorem C5_new_mints_supply_to_owner (owner : AccountId) (ts : Nat)
    (h : ts ≤ U128MAX) :
    ∃ st, new owner ts = .ok st ∧ ft_total_supply st = ts ∧
      ft_balance_of st owner = ts := by
  refine ⟨{ balances := [(owner, ts)], storage := [], supply := ts }, ?_, rfl, ?_⟩
  · simp [new, register, mint, lookupAcc, setAcc]
    omega
  · simp [ft_balance_of, lookupAcc]

/-- Witness for C5 at the spec's concrete input: initializing with owner
`owner` and supply 1000000. -/
theorem C5_new_mints_supply_to_owner_witness :
    (1000000 : Nat) ≤ U128MAX ∧
    ∃ st, new "owner" 1000000 = .ok st ∧ ft_total_supply st = 1000000 ∧
      ft_balance_of st "owner" = 1000000 :=
  ⟨by decide, C5_new_mints_supply_to_owner "owner" 1000000 (by decide)⟩

end FT

namespace FT

/-- Claim C6: for every unregistered account and every attached amount
strictly below the minimum storage bound, `storage_deposit` fails with
`InsufficientStorageDeposit`, returns the entire attached amount
unconsumed, and does not produce any new state (the invocation aborts with
full rollback, so neither ledger is mutated and the account is not
registered). -/
theorem C6_storage_deposit_insufficient (bounds : StorageBalanceBounds) (st : TokenState)
    (a : AccountId) (ro : Bool) (attached : Nat)
    (hunreg : lookupAcc st.storage a = none) (hlt : attached < bounds.min) :
    storage_deposit bounds st a ro attached = .error .InsufficientStorageDeposit ∧
    storage_deposit_refund bounds st a ro attached = attached ∧
    ∀ st1 tot refund, storage_deposit bounds st a ro attached ≠ .ok (st1, tot, refund) := by
  have h1 : storage_deposit bounds st a ro attached = .error .InsufficientStorageDeposit := by
    simp [storage_deposit, hunreg, hlt]
  refine ⟨h1, ?_, ?_⟩
  · simp [storage_deposit_refund, h1]
  · intro st1 tot refund
    simp [h1]

/-- Witness for C6 at a concrete input: bounds minimum 5, attached 3. -/
theorem C6_storage_deposit_insufficient_witness :
    storage_deposit ⟨5, none⟩ ⟨[], [], 0⟩ "a" false 3 = .error .InsufficientStorageDeposit ∧
    storage_deposit_refund ⟨5, none⟩ ⟨[], [], 0⟩ "a" false 3 = 3 ∧
    ∀ st1 tot refund,
      storage_deposit ⟨5, none⟩ ⟨[], [], 0⟩ "a" false 3 ≠ .ok (st1, tot, refund) :=
  C6_storage_deposit_insufficient ⟨5, none⟩ ⟨[], [], 0⟩ "a" false 3 (by decide) (by decide)

/-- Claim C7: for every registered account with nonzero balance `b`,
`storage_unregister` with `force` set burns `b` (the total supply decreases
by `b`), emits both the closed-account log and the forced-burn log, removes
the account row from both ledgers, and releases its full escrow; without
`force` it fails `NonZeroBalance`. -/
theorem C7_storage_unregister_force (st : TokenState) (a : AccountId) (b esc : Nat)
    (hb : lookupAcc st.balances a = some b) (hbne : b ≠ 0)
    (hesc : lookupAcc st.storage a = some esc)
    (hndb : (st.balances.map Prod.fst).Nodup)
    (hnds : (st.storage.map Prod.fst).Nodup)
    (hsup : b ≤ st.supply) :
    storage_unregister st a (some true) =
      .ok ({ balances := removeAcc st.balances a, storage := removeAcc st.storage a,
             supply := st.supply - b },
           true, esc, [on_tokens_burned a b, on_account_closed a b]) ∧
    (st.supply - b) + b = st.supply ∧
    lookupAcc (removeAcc st.balances a) a = none ∧
    lookupAcc (removeAcc st.storage a) a = none ∧
    storage_unregister st a (some false) = .error .NonZeroBalance ∧
    storage_unregister st a none = .error .NonZeroBalance := by
  refine ⟨?_, by omega, lookupAcc_removeAcc_self _ _ hndb, lookupAcc_removeAcc_self _ _ hnds,
    ?_, ?_⟩
  · simp [storage_unregister, hb, hbne, hesc]
  · simp [storage_unregister, hb, hbne]
  · simp [storage_unregister, hb, hbne]

/-- Witness for C7 at a concrete input: account `a` holding 500 with
escrow 10. -/
theorem C7_storage_unregister_force_witness :
    storage_unregister ⟨[("a", 500)], [("a", 10)], 500⟩ "a" (some true) =
      .ok ({ balances := removeAcc [("a", 500)] "a", storage := removeAcc [("a", 10)] "a",
             supply := 500 - 500 },
           true, 10, [on_tokens_burned "a" 500, on_account_closed "a" 500]) ∧
    ((500 : Nat) - 500) + 500 = 500 ∧
    lookupAcc (removeAcc [("a", 500)] "a") "a" = none ∧
    lookupAcc (removeAcc [("a", 10)] "a") "a" = none ∧
    storage_unregister ⟨[("a", 500)], [("a", 10)], 500⟩ "a" (some false) =
      .error .NonZeroBalance ∧
    storage_unregister ⟨[("a", 500)], [("a", 10)], 500⟩ "a" none = .error .NonZeroBalance :=
  C7_storage_unregister_force ⟨[("a", 500)], [("a", 10)], 500⟩ "a" 500 10
    (by decide) (by decide) (by decide) (by decide) (by decide) (by decide)

/-- Claim C8: `storage_withdraw` is callable only with a zero-value
attachment (any nonzero attachment aborts), and for every registered
account it computes `available = total - bounds.min`, withdraws all of
`available` when the argument is `none`, and fails
`InsufficientStorageDeposit` when the argument is `some x` with
`x > available`. -/
theorem C8_storage_withdraw_spec (bounds : StorageBalanceBounds) (st : TokenState)
    (a : AccountId) (tot : Nat) (hreg : lookupAcc st.storage a = some tot) :
    (∀ amt v, v ≠ 0 → storage_withdraw bounds st a amt v = .error .hostAbort) ∧
    storage_withdraw bounds st a none 0 =
      .ok ({ st with storage := (setAcc st.storage a (tot - (tot - bounds.min))) },
           tot - bounds.min) ∧
    (∀ x, tot - bounds.min < x →
      storage_withdraw bounds st a (some x) 0 =
        .error (.contractErr .InsufficientStorageDeposit)) := by
  refine ⟨?_, ?_, ?_⟩
  · intro amt v hv
    simp [storage_withdraw, hv]
  · simp [storage_withdraw, hreg]
  · intro x hx
    simp [storage_withdraw, hreg, hx]

/-- Witness for C8 at a concrete input: escrow total 12, bounds minimum 5,
available 7. -/
theorem C8_storage_withdraw_spec_witness :
    (∀ amt v, v ≠ 0 →
      storage_withdraw ⟨5, none⟩ ⟨[], [("a", 12)], 0⟩ "a" amt v = .error .hostAbort) ∧
    storage_withdraw ⟨5, none⟩ ⟨[], [("a", 12)], 0⟩ "a" none 0 =
      .ok ({ balances := [], storage := (setAcc [("a", 12)] "a" (12 - (12 - 5))),
             supply := 0 }, 12 - 5) ∧
    (∀ x, 12 - 5 < x →
      storage_withdraw ⟨5, none⟩ ⟨[], [("a", 12)], 0⟩ "a" (some x) 0 =
        .error (.contractErr .InsufficientStorageDeposit)) :=
  C8_storage_withdraw_spec ⟨5, none⟩ ⟨[], [("a", 12)], 0⟩ "a" 12 (by decide)

/-- Claim C9: for every account with no prior escrow, when the
storage-bounds maximum is unset, a successful `storage_deposit` of
`attached` followed by `storage_withdraw(none)` returns exactly
`attached - min` to the caller. -/
theorem C9_deposit_withdraw_roundtrip (bounds : StorageBalanceBounds) (st : TokenState)
    (a : AccountId) (attached : Nat)
    (hmax : bounds.max = none)
    (hunreg : lookupAcc st.storage a = none)
    (hge : bounds.min ≤ attached) :
    ∃ st1 st2,
      storage_deposit bounds st a false attached = .ok (st1, attached, 0) ∧
      storage_withdraw bounds st1 a none 0 = .ok (st2, attached - bounds.min) := by
  have hcons : depositConsumed bounds false attached = attached := by
    simp [depositConsumed, hmax]
  refine ⟨{ st with balances := registerIfAbsent st.balances a, storage := setAcc st.storage a attached }, { st with balances := registerIfAbsent st.balances a, storage := setAcc (setAcc st.storage a attached) a (attached - (attached - bounds.min)) }, ?_, ?_⟩
  · simp [storage_deposit, hunreg, Nat.not_lt.mpr hge, hcons]
  · simp [storage_withdraw, lookupAcc_setAcc_self]

/-- Witness for C9 at a concrete input: bounds minimum 5, maximum unset,
attached 12; the round trip returns 7. -/
theorem C9_deposit_withdraw_roundtrip_witness :
    ∃ st1 st2,
      storage_deposit ⟨5, none⟩ ⟨[], [], 0⟩ "a" false 12 = .ok (st1, 12, 0) ∧
      storage_withdraw ⟨5, none⟩ st1 "a" none 0 = .ok (st2, 12 - 5) :=
  C9_deposit_withdraw_roundtrip ⟨5, none⟩ ⟨[], [], 0⟩ "a" 12 rfl (by decide) (by decide)

/-- Claim C10: the `ft_transfer` entry point is non-payable — every
invocation with a nonzero attached deposit aborts before any ledger
mutation (it never produces a success state), unlike `ft_transfer_call`,
which accepts attached value and never aborts on attachment grounds. -/
theorem C10_ft_transfer_nonpayable (st : TokenState) (sender receiver : AccountId)
    (amount : Nat) (memo : Option String) :
    (∀ v, v ≠ 0 → ft_transfer st sender receiver amount memo v = .error .hostAbort) ∧
    (∀ v, v ≠ 0 → ∀ st1, ft_transfer st sender receiver amount memo v ≠ .ok st1) ∧
    (∀ v msg, ft_transfer_call st sender receiver amount memo msg v ≠ .error .hostAbort) := by
  have habort : ∀ v, v ≠ 0 →
      ft_transfer st sender receiver amount memo v = .error .hostAbort := by
    intro v hv
    simp [ft_transfer, hv]
  refine ⟨habort, ?_, ?_⟩
  · intro v hv st1
    simp [habort v hv]
  · intro v msg hcontra
    unfold ft_transfer_call at hcontra
    split at hcontra
    · simp at hcontra
    · simp at hcontra

/-- Witness for C10 at a concrete input: attaching 1 unit to `ft_transfer`
aborts. -/
theorem C10_ft_transfer_nonpayable_witness :
    ft_transfer ⟨[], [], 0⟩ "a" "b" 1 none 1 = .error .hostAbort :=
  (C10_ft_transfer_nonpayable ⟨[], [], 0⟩ "a" "b" 1 none).1 1 (by decide)

end FT
